import Mathlib

/-
Verification development for bin/colourise-go-test-output.py.

The script is a single-pass line filter over stdin.  For each line it
strips whitespace, skips blank lines, tries json.loads, and on success
reads the fields Package, Test, Action, Output (defaulting to the empty
string) plus the presence of an Elapsed field.  It maintains three pieces
of state: test_buffers (a defaultdict from test key to the list of output
fragments seen so far), failed_tests (a set of test keys), and
any_test_failed (a boolean).  Fragments are written to stdout in light
grey or to stderr in red or yellow, and main returns 1 when
any_test_failed is set, else 0.

The embedding below mirrors the loop body of main line by line.  Python
dicts preserve insertion order, so test_buffers is modelled as an
association list; a set is modelled as a duplicate-free insertion list.
The defaultdict semantics matter: reading test_buffers[key] inside the
fail branch inserts an empty entry when the key is absent.

json.loads is external; a stdin line is abstracted by its decode outcome:
blank after stripping, a json.JSONDecodeError (caught: the line is
skipped), a JSON value that is not an object (json.loads succeeds but
data.get then raises an uncaught AttributeError, aborting the process,
e.g. for the line 5), or an object, which yields an Event.
-/

namespace ColouriseGoTestOutput

/-- The ANSI sequence written by Colors.LIGHT_GREY. -/
def LIGHT_GREY : String := "\x1b[90m"

/-- The ANSI sequence written by Colors.RED. -/
def RED : String := "\x1b[91m"

/-- The ANSI sequence written by Colors.YELLOW. -/
def YELLOW : String := "\x1b[93m"

/-- The ANSI sequence written by Colors.RESET. -/
def RESET : String := "\x1b[0m"

/-- Whether the pattern list is an initial segment of the other list. -/
def startsWithChars : List Char → List Char → Bool
  | [], _ => true
  | _ :: _, [] => false
  | a :: as, b :: bs => a == b && startsWithChars as bs

/-- Whether the pattern list occurs contiguously inside the other list. -/
def containsSub (pat : List Char) : List Char → Bool
  | [] => startsWithChars pat []
  | c :: rest => startsWithChars pat (c :: rest) || containsSub pat rest

/-- Python substring membership, as in the test FAIL in output. -/
def strContains (hay pat : String) : Bool :=
  containsSub pat.data hay.data

/-- One decoded JSON object from a stdin line.  Each field holds the
result of data.get with default empty string; hasElapsed records whether
the object carries an Elapsed key (only its presence is tested). -/
structure Event where
  package : String
  test : String
  action : String
  output : String
  hasElapsed : Bool
deriving DecidableEq, Repr

/-- The buffering key: package::test when test is non-empty, else
package alone. -/
def testKey (e : Event) : String :=
  if e.test ≠ ("") then e.package ++ ("::") ++ e.test else e.package

/-- The two output sinks: primary is stdout, diagnostic is stderr. -/
inductive OutStream where
  | primary
  | diagnostic
deriving DecidableEq, Repr

/-- One chunk written by the script: the target stream, the colour
sequence opening the chunk, and the fragment text.  The bytes written
are colour ++ text ++ RESET, followed by a flush of the stream. -/
structure Emission where
  stream : OutStream
  colour : String
  text : String
deriving DecidableEq, Repr

/-- test_buffers, an insertion-ordered mapping from test key to the
fragments buffered for that key. -/
abbrev Buffers := List (String × List String)

/-- Dictionary lookup on the association list. -/
def lookupBuf : Buffers → String → Option (List String)
  | [], _ => none
  | (k, v) :: rest, key => if k = key then some v else lookupBuf rest key

/-- Replace the value stored at an existing key (append a binding at the
end when the key is absent). -/
def setBuf : Buffers → String → List String → Buffers
  | [], key, v => [(key, v)]
  | (k, w) :: rest, key, v =>
    if k = key then (key, v) :: rest else (k, w) :: setBuf rest key v

/-- del test_buffers[key]: drop the binding for the key. -/
def eraseBuf : Buffers → String → Buffers
  | [], _ => []
  | (k, v) :: rest, key =>
    if k = key then eraseBuf rest key else (k, v) :: eraseBuf rest key

/-- test_buffers[key].append(frag) on a defaultdict(list): extend the
existing entry, or create a fresh singleton entry at the end. -/
def appendBuf (bs : Buffers) (key frag : String) : Buffers :=
  match lookupBuf bs key with
  | some v => setBuf bs key (v ++ [frag])
  | none => bs ++ [(key, [frag])]

/-- Reading test_buffers[key] on a defaultdict(list): return the stored
fragments, inserting an empty entry when the key is absent. -/
def readBuf (bs : Buffers) (key : String) : Buffers × List String :=
  match lookupBuf bs key with
  | some v => (bs, v)
  | none => (bs ++ [(key, [])], [])

/-- failed_tests.add(key) on the set, modelled as a duplicate-free
insertion list. -/
def addKey (ks : List String) (k : String) : List String :=
  if k ∈ ks then ks else ks ++ [k]

/-- failed_tests.discard(key). -/
def discardKey (ks : List String) (k : String) : List String :=
  ks.filter (fun x => x != k)

/-- The mutable state of main. -/
structure St where
  test_buffers : Buffers
  failed_tests : List String
  any_test_failed : Bool
deriving DecidableEq, Repr

/-- The state at the top of main: both containers empty, flag false. -/
def initSt : St := St.mk [] [] false

/-- The body of the for loop of main for one successfully decoded event:
the updated state and the chunks written, in order.  Mirrors the source:
append to the buffer when test and output are both non-empty; on a fail
action add the key to failed_tests, set the flag, and flush the buffered
fragments for the key in yellow to stderr (a defaultdict read); when
output is non-empty emit it once, red to stderr if it contains FAIL,
else yellow to stderr if the key is in failed_tests, else grey to
stdout; finally, when the event has an Elapsed field, delete the buffer
entry and discard the key from failed_tests. -/
def stepEvent (s : St) (e : Event) : St × List Emission :=
  let test_key := testKey e
  let bufs1 :=
    if e.test ≠ ("") ∧ e.output ≠ ("")
    then appendBuf s.test_buffers test_key e.output
    else s.test_buffers
  let failed1 :=
    if e.action = ("fail") then addKey s.failed_tests test_key
    else s.failed_tests
  let any1 := if e.action = ("fail") then true else s.any_test_failed
  let flushRes :=
    if e.action = ("fail") then readBuf bufs1 test_key else (bufs1, [])
  let bufs2 := flushRes.1
  let flushOut :=
    flushRes.2.map (fun f => Emission.mk OutStream.diagnostic YELLOW f)
  let classOut :=
    if e.output ≠ ("") then
      if strContains e.output ("FAIL") = true then
        [Emission.mk OutStream.diagnostic RED e.output]
      else if test_key ∈ failed1 then
        [Emission.mk OutStream.diagnostic YELLOW e.output]
      else
        [Emission.mk OutStream.primary LIGHT_GREY e.output]
    else []
  let bufs3 := if e.hasElapsed then eraseBuf bufs2 test_key else bufs2
  let failed2 := if e.hasElapsed then discardKey failed1 test_key else failed1
  (St.mk bufs3 failed2 any1, flushOut ++ classOut)

/-- One stdin line, abstracted by the outcome of stripping and decoding:
blank (skipped), a caught json.JSONDecodeError (skipped), a JSON value
that is not an object (data.get raises an uncaught AttributeError and the
process aborts), or a decoded object. -/
inductive Line where
  | blank
  | decodeError
  | nonRecord
  | event (e : Event)
deriving DecidableEq, Repr

/-- The main loop from a given state over the remaining lines: the
chunks written, and the final state, or none when the process aborts on
a nonRecord line (chunks already written before the abort stay). -/
def runLines (s : St) : List Line → List Emission × Option St
  | [] => ([], some s)
  | Line.blank :: rest => runLines s rest
  | Line.decodeError :: rest => runLines s rest
  | Line.nonRecord :: _ => ([], none)
  | Line.event e :: rest =>
    let r1 := stepEvent s e
    let r2 := runLines r1.1 rest
    (r1.2 ++ r2.1, r2.2)

/-- All chunks written on a run of main over the given lines. -/
def mainEmissions (ls : List Line) : List Emission := (runLines initSt ls).1

/-- The state at the bottom of main, or none when the run aborts. -/
def mainFinal (ls : List Line) : Option St := (runLines initSt ls).2

/-- The value main returns (sys.exit is called on it), or none when the
run aborts on an uncaught exception instead of returning. -/
def exitCode (ls : List Line) : Option Nat :=
  (mainFinal ls).map (fun s => if s.any_test_failed then 1 else 0)

/-- The successfully decoded events among the lines, in order. -/
def eventsOf (ls : List Line) : List Event :=
  ls.filterMap (fun l => match l with | Line.event e => some e | _ => none)

/-- Sample event: a plain output line for test t of package p. -/
def sampleOutputEvent : Event := Event.mk ("p") ("t") ("output") ("ok\n") false

/-- Sample event: a bare fail action for test t of package p, with no
output and no Elapsed field. -/
def sampleFailEvent : Event := Event.mk ("p") ("t") ("fail") ("") false

/-- Sample event: a fail action carrying its own output fragment. -/
def sampleFailOutputEvent : Event :=
  Event.mk ("p") ("t") ("fail") ("boom\n") false

/-- Sample event: a completion record with an Elapsed field for test t of
package p. -/
def sampleElapsedEvent : Event := Event.mk ("p") ("t") ("pass") ("") true

/-- Sample event: a fail record with empty Test and Output fields, as in
a package-level fail line without an Elapsed field. -/
def packageFailEvent : Event := Event.mk ("p") ("") ("fail") ("") false

/-- Scenario B of the spec: run, then an output fragment, then a fail
record carrying Elapsed and no Output, all for the same test key. -/
def scenarioB : List Line :=
  [Line.event (Event.mk ("p") ("t") ("run") ("") false),
   Line.event (Event.mk ("p") ("t") ("output") ("boom\n") false),
   Line.event (Event.mk ("p") ("t") ("fail") ("") true)]

/-- Sample pre-state: one buffered fragment for key p::t. -/
def sampleBufSt : St := St.mk [(("p::t"), [("a\n")])] [] false

/-- Sample pre-state: one buffered fragment and a failed mark for key
p::t, the flag already set. -/
def sampleFailedSt : St := St.mk [(("p::t"), [("a\n")])] [("p::t")] true

/-- Every non-empty buffer entry is accounted for by some event, among
those processed so far, that carried both a test name and an output
fragment for that key. -/
def BufOrigin (es : List Event) (bs : Buffers) : Prop :=
  ∀ (k : String) (v : List String), lookupBuf bs k = some v → v ≠ [] →
    ∃ e ∈ es, testKey e = k ∧ e.test ≠ ("") ∧ e.output ≠ ("")

/-! Lookup lemmas for the buffer operations. -/

theorem lookupBuf_append (bs cs : Buffers) (k : String) :
    lookupBuf (bs ++ cs) k =
      match lookupBuf bs k with
      | some v => some v
      | none => lookupBuf cs k := by
  induction bs with
  | nil => simp [lookupBuf]
  | cons hd tl ih =>
    obtain ⟨k0, v0⟩ := hd
    by_cases h : k0 = k <;> simp [lookupBuf, h, ih]

theorem lookupBuf_setBuf_self (bs : Buffers) (k : String) (v : List String) :
    lookupBuf (setBuf bs k v) k = some v := by
  induction bs with
  | nil => simp [setBuf, lookupBuf]
  | cons hd tl ih =>
    obtain ⟨k0, v0⟩ := hd
    by_cases h : k0 = k <;> simp [setBuf, lookupBuf, h, ih]

theorem lookupBuf_setBuf_ne (bs : Buffers) (k k2 : String) (v : List String)
    (h : k2 ≠ k) : lookupBuf (setBuf bs k v) k2 = lookupBuf bs k2 := by
  induction bs with
  | nil => simp [setBuf, lookupBuf, Ne.symm h]
  | cons hd tl ih =>
    obtain ⟨k0, v0⟩ := hd
    by_cases h0 : k0 = k
    · subst h0
      simp [setBuf, lookupBuf, Ne.symm h]
    · simp [setBuf, lookupBuf, h0, ih]

theorem lookupBuf_eraseBuf_self (bs : Buffers) (k : String) :
    lookupBuf (eraseBuf bs k) k = none := by
  induction bs with
  | nil => simp [eraseBuf, lookupBuf]
  | cons hd tl ih =>
    obtain ⟨k0, v0⟩ := hd
    by_cases h : k0 = k <;> simp [eraseBuf, lookupBuf, h, ih]

theorem lookupBuf_eraseBuf_ne (bs : Buffers) (k k2 : String) (h : k2 ≠ k) :
    lookupBuf (eraseBuf bs k) k2 = lookupBuf bs k2 := by
  induction bs with
  | nil => simp [eraseBuf]
  | cons hd tl ih =>
    obtain ⟨k0, v0⟩ := hd
    by_cases h0 : k0 = k
    · subst h0
      simp [eraseBuf, lookupBuf, Ne.symm h, ih]
    · simp [eraseBuf, lookupBuf, h0, ih]

theorem lookupBuf_appendBuf_self (bs : Buffers) (k f : String) :
    lookupBuf (appendBuf bs k f) k = some ((lookupBuf bs k).getD [] ++ [f]) := by
  unfold appendBuf
  cases h : lookupBuf bs k with
  | none => simp [lookupBuf_append, h, lookupBuf]
  | some v => simp [lookupBuf_setBuf_self, h]

theorem lookupBuf_appendBuf_ne (bs : Buffers) (k k2 f : String) (h : k2 ≠ k) :
    lookupBuf (appendBuf bs k f) k2 = lookupBuf bs k2 := by
  unfold appendBuf
  cases h0 : lookupBuf bs k with
  | none =>
    rw [lookupBuf_append]
    cases h2 : lookupBuf bs k2 <;> simp [h2, lookupBuf, Ne.symm h]
  | some v => simp [lookupBuf_setBuf_ne, h]

theorem readBuf_fst_self (bs : Buffers) (k : String) :
    lookupBuf (readBuf bs k).1 k = some ((lookupBuf bs k).getD []) := by
  unfold readBuf
  cases h : lookupBuf bs k with
  | none => simp [lookupBuf_append, h, lookupBuf]
  | some v => simp [h]

theorem readBuf_fst_ne (bs : Buffers) (k k2 : String) (h : k2 ≠ k) :
    lookupBuf (readBuf bs k).1 k2 = lookupBuf bs k2 := by
  unfold readBuf
  cases h0 : lookupBuf bs k with
  | none =>
    rw [lookupBuf_append]
    cases h2 : lookupBuf bs k2 <;> simp [h2, lookupBuf, Ne.symm h]
  | some v => simp

theorem readBuf_snd (bs : Buffers) (k : String) :
    (readBuf bs k).2 = (lookupBuf bs k).getD [] := by
  unfold readBuf
  cases h : lookupBuf bs k <;> simp

theorem mem_addKey (ks : List String) (k a : String) :
    a ∈ addKey ks k ↔ a ∈ ks ∨ a = k := by
  unfold addKey
  by_cases h : k ∈ ks
  · simp only [if_pos h]
    constructor
    · exact Or.inl
    · rintro (ha | rfl) <;> [exact ha; exact h]
  · simp [if_neg h]

theorem self_mem_addKey (ks : List String) (k : String) : k ∈ addKey ks k := by
  rw [mem_addKey]
  exact Or.inr rfl

theorem mem_discardKey (ks : List String) (k a : String) :
    a ∈ discardKey ks k ↔ a ∈ ks ∧ a ≠ k := by
  simp [discardKey, List.mem_filter, bne_iff_ne]

/-! Characterisations of the pieces of stepEvent. -/

theorem stepEvent_any_test_failed (s : St) (e : Event) :
    (stepEvent s e).1.any_test_failed =
      (s.any_test_failed || decide (e.action = ("fail"))) := by
  by_cases h : e.action = ("fail") <;> simp [stepEvent, h]

theorem stepEvent_failed_tests (s : St) (e : Event) :
    (stepEvent s e).1.failed_tests =
      (if e.hasElapsed then
        discardKey
          (if e.action = ("fail") then addKey s.failed_tests (testKey e)
           else s.failed_tests) (testKey e)
      else
        (if e.action = ("fail") then addKey s.failed_tests (testKey e)
         else s.failed_tests)) := by
  by_cases h1 : e.action = ("fail") <;> by_cases h2 : e.hasElapsed <;>
    simp [stepEvent, h1, h2]

theorem stepEvent_test_buffers (s : St) (e : Event) :
    (stepEvent s e).1.test_buffers =
      (let bufs1 :=
        if e.test ≠ ("") ∧ e.output ≠ ("")
        then appendBuf s.test_buffers (testKey e) e.output
        else s.test_buffers
       let bufs2 :=
        if e.action = ("fail") then (readBuf bufs1 (testKey e)).1 else bufs1
       if e.hasElapsed then eraseBuf bufs2 (testKey e) else bufs2) := by
  by_cases h1 : e.action = ("fail") <;> by_cases h2 : e.hasElapsed <;>
    simp [stepEvent, h1, h2]

theorem stepEvent_out (s : St) (e : Event) :
    (stepEvent s e).2 =
      (if e.action = ("fail")
        then ((readBuf
            (if e.test ≠ ("") ∧ e.output ≠ ("")
             then appendBuf s.test_buffers (testKey e) e.output
             else s.test_buffers) (testKey e)).2).map
            (fun f => Emission.mk OutStream.diagnostic YELLOW f)
        else []) ++
      (if e.output ≠ ("") then
        (if strContains e.output ("FAIL") = true then
          [Emission.mk OutStream.diagnostic RED e.output]
        else if testKey e ∈ (if e.action = ("fail")
            then addKey s.failed_tests (testKey e) else s.failed_tests) then
          [Emission.mk OutStream.diagnostic YELLOW e.output]
        else [Emission.mk OutStream.primary LIGHT_GREY e.output])
      else []) := by
  by_cases h1 : e.action = ("fail") <;> simp [stepEvent, h1]

/-! Lemmas about eventsOf and the run. -/

theorem eventsOf_nil : eventsOf [] = [] := rfl

theorem eventsOf_cons_blank (ls : List Line) :
    eventsOf (Line.blank :: ls) = eventsOf ls := rfl

theorem eventsOf_cons_decodeError (ls : List Line) :
    eventsOf (Line.decodeError :: ls) = eventsOf ls := rfl

theorem eventsOf_cons_event (e : Event) (ls : List Line) :
    eventsOf (Line.event e :: ls) = e :: eventsOf ls := rfl

theorem runLines_nil (s : St) : runLines s [] = ([], some s) := rfl

theorem runLines_cons_event (s : St) (e : Event) (rest : List Line) :
    runLines s (Line.event e :: rest) =
      ((stepEvent s e).2 ++ (runLines (stepEvent s e).1 rest).1,
        (runLines (stepEvent s e).1 rest).2) := rfl

theorem runLines_any_iff (ls : List Line) :
    ∀ (s : St) (out : List Emission) (s2 : St), runLines s ls = (out, some s2) →
      (s2.any_test_failed = true ↔
        (s.any_test_failed = true ∨ ∃ e ∈ eventsOf ls, e.action = ("fail"))) := by
  induction ls with
  | nil =>
    intro s out s2 hr
    rw [runLines_nil, Prod.ext_iff] at hr
    obtain ⟨-, h2⟩ := hr
    obtain rfl : s = s2 := Option.some_injective _ h2
    simp [eventsOf_nil]
  | cons l rest ih =>
    intro s out s2 hr
    cases l with
    | blank =>
      rw [show runLines s (Line.blank :: rest) = runLines s rest from rfl] at hr
      rw [ih s out s2 hr, eventsOf_cons_blank]
    | decodeError =>
      rw [show runLines s (Line.decodeError :: rest) = runLines s rest from rfl] at hr
      rw [ih s out s2 hr, eventsOf_cons_decodeError]
    | nonRecord =>
      rw [show runLines s (Line.nonRecord :: rest) = ([], none) from rfl,
        Prod.ext_iff] at hr
      exact absurd hr.2 (by simp)
    | event e =>
      rw [runLines_cons_event, Prod.ext_iff] at hr
      have h2 : runLines (stepEvent s e).1 rest =
          ((runLines (stepEvent s e).1 rest).1, some s2) := by
        rw [Prod.ext_iff]
        exact ⟨rfl, hr.2⟩
      rw [ih (stepEvent s e).1 _ s2 h2, stepEvent_any_test_failed,
        eventsOf_cons_event]
      constructor
      · rintro (hb | hex)
        · rcases Bool.or_eq_true_iff.mp hb with hb1 | hb2
          · exact Or.inl hb1
          · exact Or.inr ⟨e, by simp [of_decide_eq_true hb2]⟩
        · obtain ⟨e2, he2, hf⟩ := hex
          exact Or.inr ⟨e2, by simp [he2, hf]⟩
      · rintro (hb | ⟨e2, he2, hf⟩)
        · exact Or.inl (by simp [hb])
        · rcases List.mem_cons.mp he2 with rfl | he3
          · exact Or.inl (by simp [hf])
          · exact Or.inr ⟨e2, he3, hf⟩

theorem runLines_any_mono (ls : List Line) (s : St) (out : List Emission)
    (s2 : St) (h : s.any_test_failed = true)
    (hr : runLines s ls = (out, some s2)) : s2.any_test_failed = true :=
  (runLines_any_iff ls s out s2 hr).mpr (Or.inl h)

/-- C5: the process exit status is 1 exactly when a successfully decoded
event with action fail was observed, and 0 otherwise; the flag is set the
first time such an event is processed and is never reset (per step, the
flag after equals the flag before OR-ed with the test action = fail).
Stated for runs that return normally (a nonRecord line instead aborts the
process before main can return). -/
theorem c5_exit_status_iff_fail_observed :
    (∀ (s : St) (e : Event),
      (stepEvent s e).1.any_test_failed =
        (s.any_test_failed || decide (e.action = ("fail")))) ∧
    (∀ (ls : List Line) (n : Nat), exitCode ls = some n →
      (n = 1 ∨ n = 0) ∧
      (n = 1 ↔ ∃ e ∈ eventsOf ls, e.action = ("fail"))) := by
  constructor
  · exact stepEvent_any_test_failed
  · intro ls n h
    unfold exitCode mainFinal at h
    rcases hr : runLines initSt ls with ⟨out, r⟩
    rw [hr] at h
    cases r with
    | none => exact absurd h (by simp)
    | some s2 =>
      simp only [Option.map_some] at h
      have hn : n = if s2.any_test_failed then 1 else 0 :=
        (Option.some_injective _ h).symm
      have hiff := runLines_any_iff ls initSt out s2 hr
      rw [show initSt.any_test_failed = false from rfl] at hiff
      by_cases hb : s2.any_test_failed
      · refine ⟨Or.inl (by simp [hn, hb]), ?_⟩
        rw [hn, if_pos hb]
        simpa using hiff.mp hb
      · refine ⟨Or.inr (by simp [hn, hb]), ?_⟩
        rw [hn, if_neg hb]
        simp only [show (0 : Nat) ≠ 1 from by omega, false_iff]
        intro hex
        exact hb (hiff.mpr (Or.inr hex))

/-- Witness for c5_exit_status_iff_fail_observed at the one-line input
whose event has action fail: the exit code is 1 and the claimed
equivalence holds there. -/
theorem c5_exit_status_witness :
    ((1 : Nat) = 1 ∨ (1 : Nat) = 0) ∧
    ((1 : Nat) = 1 ↔
      ∃ e ∈ eventsOf [Line.event (Event.mk ("p") ("t") ("fail") ("") false)],
        e.action = ("fail")) :=
  c5_exit_status_iff_fail_observed.2
    [Line.event (Event.mk ("p") ("t") ("fail") ("") false)] 1 rfl

/-- C1: for every decoded event with non-empty output, the step-4 pass
classifies and emits the fragment exactly once, after the flush chunks
(which are all yellow diagnostic ones): red on the diagnostic stream when
the text contains FAIL — and then nothing at all reaches the primary
stream — else yellow on the diagnostic stream when the test key is in
failed_tests at the moment of the check (the pre-state set, extended
with the key itself when the event action is fail), else grey on the
primary stream. -/
theorem c1_step4_classification (s : St) (e : Event) (h : e.output ≠ ("")) :
    (∃ flush,
      (stepEvent s e).2 = flush ++
        (if strContains e.output ("FAIL") = true then
          [Emission.mk OutStream.diagnostic RED e.output]
        else if testKey e ∈ (if e.action = ("fail")
            then addKey s.failed_tests (testKey e) else s.failed_tests) then
          [Emission.mk OutStream.diagnostic YELLOW e.output]
        else [Emission.mk OutStream.primary LIGHT_GREY e.output]) ∧
      ∀ em ∈ flush, em.stream = OutStream.diagnostic ∧ em.colour = YELLOW) ∧
    (strContains e.output ("FAIL") = true →
      ∀ em ∈ (stepEvent s e).2, em.stream = OutStream.diagnostic) := by
  rw [stepEvent_out, if_pos h]
  refine ⟨⟨_, rfl, ?_⟩, ?_⟩
  · intro em hem
    by_cases hf : e.action = ("fail")
    · rw [if_pos hf] at hem
      obtain ⟨f, -, rfl⟩ := List.mem_map.mp hem
      exact ⟨rfl, rfl⟩
    · rw [if_neg hf] at hem
      exact absurd hem (List.not_mem_nil em)
  · intro hFAIL em hem
    rw [if_pos hFAIL] at hem
    rcases List.mem_append.mp hem with hem1 | hem2
    · by_cases hf : e.action = ("fail")
      · rw [if_pos hf] at hem1
        obtain ⟨f, -, rfl⟩ := List.mem_map.mp hem1
        rfl
      · rw [if_neg hf] at hem1
        exact absurd hem1 (List.not_mem_nil em)
    · obtain rfl := List.mem_singleton.mp hem2
      rfl

/-- Witness for c1_step4_classification at the initial state and a plain
output event. -/
theorem c1_step4_classification_witness :
    (∃ flush,
      (stepEvent initSt sampleOutputEvent).2 = flush ++
        (if strContains sampleOutputEvent.output ("FAIL") = true then
          [Emission.mk OutStream.diagnostic RED sampleOutputEvent.output]
        else if testKey sampleOutputEvent ∈
            (if sampleOutputEvent.action = ("fail")
             then addKey initSt.failed_tests (testKey sampleOutputEvent)
             else initSt.failed_tests) then
          [Emission.mk OutStream.diagnostic YELLOW sampleOutputEvent.output]
        else
          [Emission.mk OutStream.primary LIGHT_GREY
            sampleOutputEvent.output]) ∧
      ∀ em ∈ flush, em.stream = OutStream.diagnostic ∧ em.colour = YELLOW) ∧
    (strContains sampleOutputEvent.output ("FAIL") = true →
      ∀ em ∈ (stepEvent initSt sampleOutputEvent).2,
        em.stream = OutStream.diagnostic) :=
  c1_step4_classification initSt sampleOutputEvent (by decide)

/-- C2: on an event whose action is fail, the chunks written start with
the fragments buffered for the events test key at flush time, in original
append order, each yellow on the diagnostic stream (no fragment is
filtered, in particular FAIL-containing ones are included); the fragments
buffered before the event form an initial segment of the output; the flag
any_test_failed is true afterwards and stays true through any remainder of
the run that returns normally. -/
theorem c2_fail_flushes_buffer (s : St) (e : Event)
    (h : e.action = ("fail")) :
    (∃ tail,
      (stepEvent s e).2 =
        ((lookupBuf
            (if e.test ≠ ("") ∧ e.output ≠ ("")
             then appendBuf s.test_buffers (testKey e) e.output
             else s.test_buffers) (testKey e)).getD []).map
          (fun f => Emission.mk OutStream.diagnostic YELLOW f) ++ tail) ∧
    (((lookupBuf s.test_buffers (testKey e)).getD []).map
        (fun f => Emission.mk OutStream.diagnostic YELLOW f)) <+:
      (stepEvent s e).2 ∧
    (stepEvent s e).1.any_test_failed = true ∧
    (∀ (ls : List Line) (out : List Emission) (s2 : St),
      runLines (stepEvent s e).1 ls = (out, some s2) →
      s2.any_test_failed = true) := by
  have hout : (stepEvent s e).2 =
      ((lookupBuf
          (if e.test ≠ ("") ∧ e.output ≠ ("")
           then appendBuf s.test_buffers (testKey e) e.output
           else s.test_buffers) (testKey e)).getD []).map
        (fun f => Emission.mk OutStream.diagnostic YELLOW f) ++
      (if e.output ≠ ("") then
        (if strContains e.output ("FAIL") = true then
          [Emission.mk OutStream.diagnostic RED e.output]
        else if testKey e ∈ (if e.action = ("fail")
            then addKey s.failed_tests (testKey e) else s.failed_tests) then
          [Emission.mk OutStream.diagnostic YELLOW e.output]
        else [Emission.mk OutStream.primary LIGHT_GREY e.output])
      else []) := by
    rw [stepEvent_out, if_pos h, readBuf_snd]
  have hany : (stepEvent s e).1.any_test_failed = true := by
    rw [stepEvent_any_test_failed, h]
    simp
  refine ⟨⟨_, hout⟩, ?_, hany,
    fun ls out s2 hr => runLines_any_mono ls _ out s2 hany hr⟩
  rw [hout]
  by_cases ha : e.test ≠ ("") ∧ e.output ≠ ("")
  · rw [if_pos ha, lookupBuf_appendBuf_self, Option.getD_some, List.map_append,
      List.append_assoc]
    exact List.prefix_append _ _
  · rw [if_neg ha]
    exact List.prefix_append _ _

/-- Witness for c2_fail_flushes_buffer at a state with one buffered
fragment and a fail event that carries its own output. -/
theorem c2_fail_flushes_buffer_witness :
    (∃ tail,
      (stepEvent sampleBufSt sampleFailOutputEvent).2 =
        ((lookupBuf
            (if sampleFailOutputEvent.test ≠ ("") ∧
                sampleFailOutputEvent.output ≠ ("")
             then appendBuf sampleBufSt.test_buffers
                (testKey sampleFailOutputEvent) sampleFailOutputEvent.output
             else sampleBufSt.test_buffers)
            (testKey sampleFailOutputEvent)).getD []).map
          (fun f => Emission.mk OutStream.diagnostic YELLOW f) ++ tail) ∧
    (((lookupBuf sampleBufSt.test_buffers
          (testKey sampleFailOutputEvent)).getD []).map
        (fun f => Emission.mk OutStream.diagnostic YELLOW f)) <+:
      (stepEvent sampleBufSt sampleFailOutputEvent).2 ∧
    (stepEvent sampleBufSt sampleFailOutputEvent).1.any_test_failed = true ∧
    (∀ (ls : List Line) (out : List Emission) (s2 : St),
      runLines (stepEvent sampleBufSt sampleFailOutputEvent).1 ls =
        (out, some s2) →
      s2.any_test_failed = true) :=
  c2_fail_flushes_buffer sampleBufSt sampleFailOutputEvent (by decide)

/-- Counterexample to C3 as stated: on scenario B the diagnostic stream
receives the fragment once (yellow, from the flush), not twice — the fail
record of scenario B has no Output field, so step 4 emits nothing for it,
and the earlier output record was classified before the key failed, hence
went to the primary stream. -/
theorem c3_counterexample :
    (mainEmissions scenarioB).filter
        (fun em => em.stream == OutStream.diagnostic) =
      [Emission.mk OutStream.diagnostic YELLOW ("boom\n")] := by decide

/-- C3 amended: on scenario B the program writes the fragment once on the
primary stream wrapped in the neutral marker (from the output record,
whose key had not failed yet) and once on the diagnostic stream wrapped
in the failed marker (from the buffer flush of the fail record), and
main returns exit status 1. -/
theorem c3_amended_scenarioB :
    mainEmissions scenarioB =
      [Emission.mk OutStream.primary LIGHT_GREY ("boom\n"),
       Emission.mk OutStream.diagnostic YELLOW ("boom\n")] ∧
    exitCode scenarioB = some 1 := by
  constructor <;> rfl

/-- C4: a fail event with non-empty test and output emits its own
fragment at least twice: the fragment was appended to the buffer in step
2, so the flush ends with it wrapped yellow on the diagnostic stream, and
step 4 then independently emits it again on the diagnostic stream — red
when it contains FAIL, else yellow since the key was just added to
failed_tests. -/
theorem c4_fail_output_double_emission (s : St) (e : Event)
    (h1 : e.action = ("fail")) (h2 : e.test ≠ ("")) (h3 : e.output ≠ ("")) :
    (stepEvent s e).2 =
      (((lookupBuf s.test_buffers (testKey e)).getD []).map
          (fun f => Emission.mk OutStream.diagnostic YELLOW f) ++
        [Emission.mk OutStream.diagnostic YELLOW e.output]) ++
      (if strContains e.output ("FAIL") = true then
        [Emission.mk OutStream.diagnostic RED e.output]
      else [Emission.mk OutStream.diagnostic YELLOW e.output]) := by
  have ha : e.test ≠ ("") ∧ e.output ≠ ("") := ⟨h2, h3⟩
  rw [stepEvent_out, if_pos h1, if_pos ha, readBuf_snd,
    lookupBuf_appendBuf_self, Option.getD_some, if_pos h3, List.map_append]
  by_cases hF : strContains e.output ("FAIL") = true
  · simp [hF]
  · simp [hF, h1, self_mem_addKey]

/-- Witness for c4_fail_output_double_emission at a state with one
buffered fragment and the fail event that carries the fragment boom. -/
theorem c4_fail_output_double_emission_witness :
    (stepEvent sampleBufSt sampleFailOutputEvent).2 =
      (((lookupBuf sampleBufSt.test_buffers
            (testKey sampleFailOutputEvent)).getD []).map
          (fun f => Emission.mk OutStream.diagnostic YELLOW f) ++
        [Emission.mk OutStream.diagnostic YELLOW
          sampleFailOutputEvent.output]) ++
      (if strContains sampleFailOutputEvent.output ("FAIL") = true then
        [Emission.mk OutStream.diagnostic RED sampleFailOutputEvent.output]
      else
        [Emission.mk OutStream.diagnostic YELLOW
          sampleFailOutputEvent.output]) :=
  c4_fail_output_double_emission sampleBufSt sampleFailOutputEvent
    (by decide) (by decide) (by decide)

/-- C6: an event carrying an Elapsed field tears down its test key: after
the step the key has no buffer entry and is not in failed_tests, and a
subsequent event reusing the same key, with non-empty output that does
not contain FAIL and an action other than fail, is classified neutral —
its only chunk is the fragment in grey on the primary stream. -/
theorem c6_elapsed_cleanup (s : St) (e : Event) (h : e.hasElapsed = true) :
    lookupBuf (stepEvent s e).1.test_buffers (testKey e) = none ∧
    testKey e ∉ (stepEvent s e).1.failed_tests ∧
    (∀ e2 : Event, testKey e2 = testKey e → e2.output ≠ ("") →
      strContains e2.output ("FAIL") = false → e2.action ≠ ("fail") →
      (stepEvent (stepEvent s e).1 e2).2 =
        [Emission.mk OutStream.primary LIGHT_GREY e2.output]) := by
  have hb : lookupBuf (stepEvent s e).1.test_buffers (testKey e) = none := by
    rw [stepEvent_test_buffers]
    simp only [h, if_true]
    exact lookupBuf_eraseBuf_self _ _
  have hf : testKey e ∉ (stepEvent s e).1.failed_tests := by
    rw [stepEvent_failed_tests]
    simp [h, mem_discardKey]
  refine ⟨hb, hf, ?_⟩
  intro e2 hk ho hF hact
  rw [stepEvent_out, if_neg hact, if_pos ho]
  rw [if_neg (show ¬ strContains e2.output ("FAIL") = true by simp [hF])]
  rw [if_neg hact, hk, if_neg hf]
  simp

/-- Witness for c6_elapsed_cleanup at a state where the key p::t is both
buffered and marked failed, and a completion event for that key. -/
theorem c6_elapsed_cleanup_witness :
    lookupBuf (stepEvent sampleFailedSt sampleElapsedEvent).1.test_buffers
      (testKey sampleElapsedEvent) = none ∧
    testKey sampleElapsedEvent ∉
      (stepEvent sampleFailedSt sampleElapsedEvent).1.failed_tests ∧
    (∀ e2 : Event, testKey e2 = testKey sampleElapsedEvent →
      e2.output ≠ ("") → strContains e2.output ("FAIL") = false →
      e2.action ≠ ("fail") →
      (stepEvent (stepEvent sampleFailedSt sampleElapsedEvent).1 e2).2 =
        [Emission.mk OutStream.primary LIGHT_GREY e2.output]) :=
  c6_elapsed_cleanup sampleFailedSt sampleElapsedEvent (by decide)

/-- C7: a non-blank line that raises json.JSONDecodeError is skipped
silently — no chunk is written, the state is untouched, and the run
continues with the next line; but a line whose JSON decodes to a value
that is not an object (the nonRecord case, e.g. the bare line 5) makes
data.get raise an uncaught AttributeError: the run writes nothing for
that line and aborts instead of reaching end-of-stream, contradicting
the never-aborts part of the claim. -/
theorem c7_decode_error_skipped_nonrecord_aborts :
    (∀ (s : St) (ls : List Line),
      runLines s (Line.decodeError :: ls) = runLines s ls) ∧
    runLines initSt [Line.nonRecord] = ([], none) :=
  ⟨fun _ _ => rfl, rfl⟩

/-! Preservation lemmas for the BufOrigin invariant (claim C8). -/

theorem bufOrigin_mono (es es2 : List Event) (bs : Buffers)
    (hsub : ∀ x ∈ es, x ∈ es2) (h : BufOrigin es bs) : BufOrigin es2 bs := by
  intro k v hv hne
  obtain ⟨e2, he2, h3⟩ := h k v hv hne
  exact ⟨e2, hsub e2 he2, h3⟩

theorem bufOrigin_appendBuf (es : List Event) (e : Event) (bs : Buffers)
    (h : BufOrigin es bs) (h1 : e.test ≠ ("")) (h2 : e.output ≠ ("")) :
    BufOrigin (es ++ [e]) (appendBuf bs (testKey e) e.output) := by
  intro k v hv hne
  by_cases hk : k = testKey e
  · exact ⟨e, List.mem_append_right _ (List.mem_singleton_self e),
      hk.symm, h1, h2⟩
  · rw [lookupBuf_appendBuf_ne bs (testKey e) k e.output hk] at hv
    obtain ⟨e2, he2, h3⟩ := h k v hv hne
    exact ⟨e2, List.mem_append_left _ he2, h3⟩

theorem bufOrigin_readBuf (es : List Event) (bs : Buffers) (key : String)
    (h : BufOrigin es bs) : BufOrigin es (readBuf bs key).1 := by
  intro k v hv hne
  by_cases hk : k = key
  · subst hk
    rw [readBuf_fst_self] at hv
    have hv2 : (lookupBuf bs k).getD [] = v := Option.some_injective _ hv
    cases h0 : lookupBuf bs k with
    | none =>
      rw [h0] at hv2
      simp only [Option.getD_none] at hv2
      exact absurd hv2.symm hne
    | some w =>
      rw [h0] at hv2
      simp only [Option.getD_some] at hv2
      rw [hv2] at h0
      exact h k v h0 hne
  · rw [readBuf_fst_ne bs key k hk] at hv
    exact h k v hv hne

theorem bufOrigin_eraseBuf (es : List Event) (bs : Buffers) (key : String)
    (h : BufOrigin es bs) : BufOrigin es (eraseBuf bs key) := by
  intro k v hv hne
  by_cases hk : k = key
  · subst hk
    rw [lookupBuf_eraseBuf_self] at hv
    exact absurd hv (by simp)
  · rw [lookupBuf_eraseBuf_ne bs key k hk] at hv
    exact h k v hv hne

theorem bufOrigin_step (es : List Event) (s : St) (e : Event)
    (h : BufOrigin es s.test_buffers) :
    BufOrigin (es ++ [e]) (stepEvent s e).1.test_buffers := by
  have hmono : BufOrigin (es ++ [e]) s.test_buffers :=
    bufOrigin_mono es (es ++ [e]) s.test_buffers
      (fun x hx => List.mem_append_left _ hx) h
  have hb1 : BufOrigin (es ++ [e])
      (if e.test ≠ ("") ∧ e.output ≠ ("")
       then appendBuf s.test_buffers (testKey e) e.output
       else s.test_buffers) := by
    by_cases hc : e.test ≠ ("") ∧ e.output ≠ ("")
    · rw [if_pos hc]
      exact bufOrigin_appendBuf es e s.test_buffers h hc.1 hc.2
    · rw [if_neg hc]
      exact hmono
  have hb2 : BufOrigin (es ++ [e])
      (if e.action = ("fail")
       then (readBuf
          (if e.test ≠ ("") ∧ e.output ≠ ("")
           then appendBuf s.test_buffers (testKey e) e.output
           else s.test_buffers) (testKey e)).1
       else (if e.test ≠ ("") ∧ e.output ≠ ("")
           then appendBuf s.test_buffers (testKey e) e.output
           else s.test_buffers)) := by
    by_cases hc : e.action = ("fail")
    · rw [if_pos hc]
      exact bufOrigin_readBuf _ _ _ hb1
    · rw [if_neg hc]
      exact hb1
  rw [stepEvent_test_buffers]
  by_cases hc : e.hasElapsed = true
  · simp only [hc, if_true]
    exact bufOrigin_eraseBuf _ _ _ hb2
  · simp only [hc, if_false]
    exact hb2

theorem bufOrigin_run (ls : List Line) :
    ∀ (es : List Event) (s : St) (out : List Emission) (s2 : St),
      BufOrigin es s.test_buffers → runLines s ls = (out, some s2) →
      BufOrigin (es ++ eventsOf ls) s2.test_buffers := by
  induction ls with
  | nil =>
    intro es s out s2 h hr
    rw [runLines_nil, Prod.ext_iff] at hr
    obtain rfl : s = s2 := Option.some_injective _ hr.2
    simpa [eventsOf_nil] using h
  | cons l rest ih =>
    intro es s out s2 h hr
    cases l with
    | blank =>
      rw [show runLines s (Line.blank :: rest) = runLines s rest from rfl]
        at hr
      rw [eventsOf_cons_blank]
      exact ih es s out s2 h hr
    | decodeError =>
      rw [show runLines s (Line.decodeError :: rest) = runLines s rest
        from rfl] at hr
      rw [eventsOf_cons_decodeError]
      exact ih es s out s2 h hr
    | nonRecord =>
      rw [show runLines s (Line.nonRecord :: rest) = ([], none) from rfl,
        Prod.ext_iff] at hr
      exact absurd hr.2 (by simp)
    | event e =>
      rw [runLines_cons_event, Prod.ext_iff] at hr
      have h2 : runLines (stepEvent s e).1 rest =
          ((runLines (stepEvent s e).1 rest).1, some s2) :=
        Prod.ext_iff.mpr ⟨rfl, hr.2⟩
      have h3 := ih (es ++ [e]) (stepEvent s e).1 _ s2
        (bufOrigin_step es s e h) h2
      rw [eventsOf_cons_event]
      simpa [List.append_assoc] using h3

/-- Counterexample to C8 as stated: running main on the single line whose
event has action fail and empty Test and Output fields leaves an Output
Buffer entry for the key p — the defaultdict read in the flush loop
inserts an empty list — although no processed event had both test and
output non-empty. -/
theorem c8_counterexample :
    mainFinal [Line.event packageFailEvent] =
      some (St.mk [(("p"), [])] [("p")] true) := rfl

/-- C8 amended: at every point of execution, a test key has a NON-EMPTY
entry in the Output Buffer only if some earlier processed event with that
key had both a non-empty test field and a non-empty output field; the
fail-action flush may in addition create an EMPTY entry for a key that
was never buffered, by the defaultdict read. -/
theorem c8_amended_nonempty_entry_origin (ls : List Line)
    (out : List Emission) (s2 : St) (hr : runLines initSt ls = (out, some s2))
    (k : String) (v : List String)
    (hv : lookupBuf s2.test_buffers k = some v) (hne : v ≠ []) :
    ∃ e ∈ eventsOf ls, testKey e = k ∧ e.test ≠ ("") ∧ e.output ≠ ("") := by
  have h0 : BufOrigin [] initSt.test_buffers := by
    intro k2 v2 hv2 hne2
    simp [initSt, lookupBuf] at hv2
  have h1 := bufOrigin_run ls [] initSt out s2 h0 hr
  rw [List.nil_append] at h1
  exact h1 k v hv hne

/-- Witness for c8_amended_nonempty_entry_origin at the one-line input
whose event buffers the fragment under key p::t. -/
theorem c8_amended_witness :
    ∃ e ∈ eventsOf [Line.event sampleOutputEvent],
      testKey e = ("p::t") ∧ e.test ≠ ("") ∧ e.output ≠ ("") :=
  c8_amended_nonempty_entry_origin [Line.event sampleOutputEvent]
    [Emission.mk OutStream.primary LIGHT_GREY ("ok\n")]
    (St.mk [(("p::t"), [("ok\n")])] [] false) rfl ("p::t") [("ok\n")]
    rfl (by decide)

/-- C9: failed_tests membership changes only as the claim says: across
one processed event, a key that was out and is now in was added by a fail
action whose own test key is that key, and a key that was in and is now
out was removed by an event carrying Elapsed whose own test key is that
key; any other event leaves the membership of that key unchanged. -/
theorem c9_failed_set_transitions (s : St) (e : Event) (k : String) :
    (k ∉ s.failed_tests → k ∈ (stepEvent s e).1.failed_tests →
      e.action = ("fail") ∧ testKey e = k) ∧
    (k ∈ s.failed_tests → k ∉ (stepEvent s e).1.failed_tests →
      e.hasElapsed = true ∧ testKey e = k) := by
  rw [stepEvent_failed_tests]
  by_cases h1 : e.action = ("fail") <;> by_cases h2 : e.hasElapsed = true <;>
    simp [h1, h2, mem_discardKey, mem_addKey] <;> tauto

/-- Witness for c9_failed_set_transitions: the bare fail event adds the
key p::t to the empty failed set, so the forward direction applies. -/
theorem c9_failed_set_transitions_witness :
    sampleFailEvent.action = ("fail") ∧
      testKey sampleFailEvent = ("p::t") :=
  (c9_failed_set_transitions initSt sampleFailEvent ("p::t")).1
    (by decide) (by decide)

/-- C10: one processed event only mutates state at its own test key: for
any other key the buffer entry and the failed_tests membership are
unchanged, and the process-wide flag never goes from true to false. -/
theorem c10_frame_other_keys (s : St) (e : Event) (k : String)
    (h : k ≠ testKey e) :
    lookupBuf (stepEvent s e).1.test_buffers k = lookupBuf s.test_buffers k ∧
    (k ∈ (stepEvent s e).1.failed_tests ↔ k ∈ s.failed_tests) ∧
    (s.any_test_failed = true → (stepEvent s e).1.any_test_failed = true) := by
  refine ⟨?_, ?_, ?_⟩
  · rw [stepEvent_test_buffers]
    by_cases h3 : e.hasElapsed = true <;> by_cases h2 : e.action = ("fail") <;>
      by_cases h1 : e.test ≠ ("") ∧ e.output ≠ ("") <;>
      simp [h1, h2, h3, lookupBuf_eraseBuf_ne, readBuf_fst_ne,
        lookupBuf_appendBuf_ne, h]
  · rw [stepEvent_failed_tests]
    by_cases h3 : e.hasElapsed = true <;> by_cases h2 : e.action = ("fail") <;>
      simp [h2, h3, mem_discardKey, mem_addKey, h]
  · intro hb
    rw [stepEvent_any_test_failed, hb]
    simp

/-- Witness for c10_frame_other_keys: the fail event for p::t leaves the
buffer entry and failed mark of the unrelated key q alone and keeps the
flag set. -/
theorem c10_frame_other_keys_witness :
    lookupBuf (stepEvent (St.mk [(("q"), [("x\n")])] [("q")] true)
        sampleFailEvent).1.test_buffers ("q") =
      lookupBuf (St.mk [(("q"), [("x\n")])] [("q")] true).test_buffers ("q") ∧
    (("q") ∈ (stepEvent (St.mk [(("q"), [("x\n")])] [("q")] true)
        sampleFailEvent).1.failed_tests ↔
      ("q") ∈ (St.mk [(("q"), [("x\n")])] [("q")] true).failed_tests) ∧
    ((St.mk [(("q"), [("x\n")])] [("q")] true).any_test_failed = true →
      (stepEvent (St.mk [(("q"), [("x\n")])] [("q")] true)
        sampleFailEvent).1.any_test_failed = true) :=
  c10_frame_other_keys (St.mk [(("q"), [("x\n")])] [("q")] true)
    sampleFailEvent ("q") (by decide)

end ColouriseGoTestOutput
